import Mathlib

/-!
Verification of the time-management panel's ics→csv pipeline
(`src/runner.py`) against its natural-language specification.

Modelling conventions (a shallow embedding of the Python source):

* An instant is a rational number of days since an arbitrary epoch, so that
  local midnight at the start of the calendar day containing `t` is `⌊t⌋`
  and the next midnight (`cursor.replace(hour=0, minute=0, second=0,
  microsecond=0) + timedelta(days=1)` in the source) is `⌊t⌋ + 1`.
  All arithmetic is exact over `ℚ`, matching the spec's "exact arithmetic"
  reading of the duration claims.
* Timezone-aware datetimes denote absolute instants; `tz_convert` /
  `astimezone` change only the wall-clock representation, never the
  instant, so comparisons between converted values coincide with
  comparisons between the underlying rationals.  A fixed-offset target
  timezone (e.g. `Etc/GMT-3`) is modelled by its UTC offset `off : ℚ`
  (in days); the local calendar date of an instant `t` is `⌊t + off⌋`.
* Python exceptions that escape a function are modelled with
  `Except String`; an uncaught exception aborts the run.
* Fields read from an ics component may be absent, modelled with `Option`.
  The external recurrence-rule evaluator (`event.get('rrule').rrule.between`)
  is an oracle input: either the occurrence starts it returns, or the
  exception it raises (caught at `runner.py` line 104).
* Date-only (all-day) values are pre-converted by the source
  (`runner.py` lines 52–58) to the instant at midnight of that date;
  here start/end values are already instants.
-/

/-- One weighted subcategory allocation, the `{'name': ..., 'weight': ...}`
dictionaries built by `_parse_subcategories` in `runner.py`. -/
structure Alloc where
  name : String
  weight : ℚ
  deriving DecidableEq

/-- Python `_parse_subcategories` (`runner.py` lines 23–37): split the
subcategory string on the subcategory delimiter, trim and lowercase each
token, discard tokens that are empty after trimming; if any tokens survive,
give each the even share `100 / N`, otherwise return the single default
allocation `{'no subcategory', 100.0}`. -/
def _parse_subcategories (subcategory_str subcat_delimiter : String) : List Alloc :=
  let sub_items :=
    (subcategory_str.splitOn subcat_delimiter).filterMap fun s =>
      if s.trim = "" then none else some s.trim.toLower
  if sub_items ≠ [] then
    sub_items.map fun n => { name := n, weight := (100 : ℚ) / sub_items.length }
  else
    [{ name := "no subcategory", weight := 100 }]

/-- Category / subcategory-string extraction from the event summary
(`runner.py` lines 67–73): when the category delimiter occurs in the
summary, split once on its first occurrence; the left part trimmed and
lowercased is the category, the right part trimmed is the subcategory
string.  Otherwise the whole trimmed lowercased summary is the category.
Python's `summary.split(cat_delimiter, 1)` is recovered from `splitOn` by
re-joining every part after the first. -/
def classify (summary cat_delimiter : String) : String × String :=
  match summary.splitOn cat_delimiter with
  | [] => (summary.trim.toLower, "")
  | [_] => (summary.trim.toLower, "")
  | x :: rest => (x.trim.toLower, (String.intercalate cat_delimiter rest).trim)

/-- One record of the intermediate table, the event-record dictionaries of
`runner.py` (fields of `create_split_records`, lines 85–91). -/
@[ext]
structure Record where
  start_datetime : ℚ
  end_datetime : ℚ
  category : String
  subcategory_1 : String
  full_summary : String
  deriving DecidableEq

/-- Python `create_split_records` (`runner.py` lines 78–93): starting from
`current_start_time`, lay one record per allocation back-to-back, each one
`instance_duration * (weight / 100)` long. -/
def create_split_records (category full_summary : String) (allocations : List Alloc)
    (current_start_time instance_duration : ℚ) : List Record :=
  match allocations with
  | [] => []
  | alloc :: rest =>
    { start_datetime := current_start_time
      end_datetime := current_start_time + instance_duration * (alloc.weight / 100)
      category := category
      subcategory_1 := alloc.name
      full_summary := full_summary } ::
      create_split_records category full_summary rest
        (current_start_time + instance_duration * (alloc.weight / 100)) instance_duration

/-- One `VEVENT` component as read from the parsed ics document.  `summary`,
`dtstart` and `dtend` may be absent (`event.get(...)` returns `None`);
`rrule`, when present, carries the outcome of the external recurrence
evaluation at `runner.py` line 99: the list of occurrence starts it
returns, or the exception it raises. -/
structure VEvent where
  summary : Option String
  dtstart : Option ℚ
  dtend : Option ℚ
  rrule : Option (Except String (List ℚ))

/-- Python `parse_event` (`runner.py` lines 40–109).  `event.get('dtstart').dt`
at line 46 raises `AttributeError` when `DTSTART` is absent (`.dt` on
`None`), before the `if not all([...])` guard at line 49 can run; same for
`DTEND` at line 47.  A missing or empty summary is falsy, so line 49
returns the empty record list.  An exception raised by the recurrence
evaluation is caught at line 104 (warning printed), yielding zero records;
a non-recurring event yields one batch of allocation records starting at
its own start. -/
def parse_event (ev : VEvent) (cat_delimiter subcat_delimiter : String) :
    Except String (List Record) :=
  match ev.dtstart with
  | none => Except.error "AttributeError"
  | some start_dt =>
    match ev.dtend with
    | none => Except.error "AttributeError"
    | some end_dt =>
      match ev.summary with
      | none => Except.ok []
      | some summ =>
        if summ = "" then Except.ok []
        else
          match ev.rrule with
          | none =>
            Except.ok (create_split_records (classify summ cat_delimiter).1 summ
              (_parse_subcategories (classify summ cat_delimiter).2 subcat_delimiter)
              start_dt (end_dt - start_dt))
          | some (Except.ok occurrences) =>
            Except.ok (occurrences.map (fun occ =>
              create_split_records (classify summ cat_delimiter).1 summ
                (_parse_subcategories (classify summ cat_delimiter).2 subcat_delimiter)
                occ (end_dt - start_dt))).flatten
          | some (Except.error _) => Except.ok []

/-- The event-collection loop of `process_ics_to_csv` (`runner.py` lines
139–144): concatenate the records of every `VEVENT`; an exception escaping
`parse_event` aborts the whole loop (there is no surrounding handler). -/
def collectEvents (evs : List VEvent) (cat_delimiter subcat_delimiter : String) :
    Except String (List Record) :=
  match evs with
  | [] => Except.ok []
  | e :: rest =>
    match parse_event e cat_delimiter subcat_delimiter with
    | Except.error msg => Except.error msg
    | Except.ok rs =>
      match collectEvents rest cat_delimiter subcat_delimiter with
      | Except.error msg => Except.error msg
      | Except.ok rest' => Except.ok (rs ++ rest')

/-- The midnight-splitting loop of `process_ics_to_csv` (`runner.py` lines
167–177): while `cursor < e`, emit `[cursor, min e end_of_day)` where
`end_of_day = ⌊cursor⌋ + 1` is the next midnight in the cursor's own
timezone, then advance the cursor to that segment end.  The source guards
the append with `if segment_end > cursor`, kept here verbatim. -/
def daySplitRec (cursor e : ℚ) : List (ℚ × ℚ) :=
  if h : cursor < e then
    (if min e ((⌊cursor⌋ : ℚ) + 1) > cursor then
        [(cursor, min e ((⌊cursor⌋ : ℚ) + 1))]
      else []) ++
      daySplitRec (min e ((⌊cursor⌋ : ℚ) + 1)) e
  else []
termination_by (⌈e⌉ - ⌊cursor⌋).toNat * 2 + (if cursor < e then 1 else 0)
decreasing_by
  rcases le_or_lt e ((⌊cursor⌋ : ℚ) + 1) with hA | hB
  · rw [min_eq_left hA]
    have h1 : ⌊cursor⌋ ≤ ⌊e⌋ := Int.floor_le_floor h.le
    simp only [lt_self_iff_false, if_false, if_pos h]
    omega
  · rw [min_eq_right hB.le]
    have hfl : ⌊((⌊cursor⌋ : ℚ) + 1)⌋ = ⌊cursor⌋ + 1 := by
      rw [show ((⌊cursor⌋ : ℚ) + 1) = (((⌊cursor⌋ + 1 : ℤ)) : ℚ) by push_cast; ring,
        Int.floor_intCast]
    have hup : ⌊cursor⌋ + 1 < ⌈e⌉ := by
      have h2 : ((⌊cursor⌋ + 1 : ℤ) : ℚ) < (⌈e⌉ : ℚ) := by
        push_cast
        exact lt_of_lt_of_le hB (Int.le_ceil e)
      exact_mod_cast h2
    simp only [hfl, if_pos h, if_pos hB]
    omega

/-- The per-record body of the expansion loop (`runner.py` lines 160–177):
records with `end_datetime <= start_datetime` are skipped (line 164);
the rest are day-split, each piece a copy of the record with the piece's
bounds. -/
def expandRecord (r : Record) : List Record :=
  if r.end_datetime ≤ r.start_datetime then []
  else
    (daySplitRec r.start_datetime r.end_datetime).map fun p =>
      { r with start_datetime := p.1, end_datetime := p.2 }

/-- The whole expansion loop over `all_events` (`runner.py` lines 159–177). -/
def expandEvents (rs : List Record) : List Record :=
  (rs.map expandRecord).flatten

/-- Lookup in the timezone database, modelling `pytz.timezone`: a known
identifier resolves to its fixed UTC offset (in days); an unknown one
raises `UnknownTimeZoneError`, modelled as `none`. -/
def pytz_timezone (tzdb : List (String × ℚ)) (timezone_str : String) : Option ℚ :=
  (tzdb.find? fun p => p.1 = timezone_str).map fun p => p.2

/-- The retention mask of `runner.py` line 203:
`(df['start_datetime'] < end_date_local) & (df['end_datetime'] > start_date_local)`. -/
def retainedRecords (window_start window_end : ℚ) (rs : List Record) : List Record :=
  rs.filter fun r =>
    decide (r.start_datetime < window_end ∧ r.end_datetime > window_start)

/-- The clipping of `runner.py` lines 213–214:
`start.clip(lower=window_start)` is `max`, `end.clip(upper=window_end)` is
`min`. -/
def clipRecord (window_start window_end : ℚ) (r : Record) : Record :=
  { r with start_datetime := max r.start_datetime window_start,
           end_datetime := min r.end_datetime window_end }

/-- `runner.py` line 216: `(end - start).dt.total_seconds() / 60`; with
instants in days this is `(end - start) * 1440`. -/
def duration_minutes (r : Record) : ℚ :=
  (r.end_datetime - r.start_datetime) * 1440

/-- The window stage of `process_ics_to_csv` (`runner.py` lines 203–217):
retention filter, clip to the window, then keep only rows with
`duration_minutes > 0.1`. -/
def windowClip (window_start window_end : ℚ) (rs : List Record) : List Record :=
  ((retainedRecords window_start window_end rs).map
      (clipRecord window_start window_end)).filter
    fun r => decide (duration_minutes r > 1/10)

/-- Lines 159–217 of `process_ics_to_csv` for a resolvable timezone:
midnight splitting followed by the window stage.  The timezone conversion
at lines 195–196 changes only the wall-clock representation of each
instant, so it is the identity on the underlying rationals; the offset
reappears in `local_date` below when calendar dates are derived. -/
def processRecords (rs : List Record) (window_start window_end : ℚ) : List Record :=
  windowClip window_start window_end (expandEvents rs)

/-- The calendar date (as an integer day index) of instant `t` seen in a
fixed-offset timezone: `df['start_datetime'].dt.date` after `tz_convert`
(`runner.py` line 220). -/
def local_date (off t : ℚ) : ℤ :=
  ⌊t + off⌋

/-- The timezone-and-window stage of `process_ics_to_csv` (`runner.py`
lines 190–217) on a non-empty record table.  When `pytz.timezone` raises
`UnknownTimeZoneError`, the handler at lines 197–198 only prints
"Falling back to UTC": the local variable `target_tz` is never assigned on
that path, so `start_date.astimezone(target_tz)` at line 201 raises
`UnboundLocalError` and the run aborts with no output written. -/
def localize_and_clip (tzdb : List (String × ℚ)) (timezone_str : String)
    (start_date end_date : ℚ) (rs : List Record) : Except String (List Record) :=
  match pytz_timezone tzdb timezone_str with
  | some _off => Except.ok (windowClip start_date end_date rs)
  | none => Except.error "UnboundLocalError"

/-- The input document as seen by `process_ics_to_csv` (`runner.py` lines
125–137): empty content, content `Calendar.from_ical` rejects, or a parsed
event list. -/
inductive Doc where
  | empty
  | invalid
  | parsed (events : List VEvent)

/-- What `process_ics_to_csv` (`runner.py` lines 122–235) writes to the
output path: `none` when the function returns (or the run aborts) without
writing, `some rows` when it writes a table with those rows.  Empty or
invalid content returns at lines 130/134/137 without touching the output
file; an exception escaping the pipeline likewise writes nothing; the
empty-table branches at lines 152–157, 180–185 and 205–210 write a fresh
empty csv. -/
def process_ics (d : Doc) (cat_delimiter subcat_delimiter : String)
    (tzdb : List (String × ℚ)) (timezone_str : String)
    (start_date end_date : ℚ) : Option (List Record) :=
  match d with
  | Doc.empty => none
  | Doc.invalid => none
  | Doc.parsed evs =>
    match collectEvents evs cat_delimiter subcat_delimiter with
    | Except.error _ => none
    | Except.ok all_events =>
      if all_events = [] then some []
      else
        if expandEvents all_events = [] then some []
        else
          match pytz_timezone tzdb timezone_str with
          | none => none
          | some _ =>
            if retainedRecords start_date end_date (expandEvents all_events) = [] then
              some []
            else
              some (windowClip start_date end_date (expandEvents all_events))

/-- The state of the output destination after a run: a run that writes
replaces the file wholesale, a run that does not write leaves whatever was
there before. -/
def outputAfterRun (previous : Option (List Record))
    (runResult : Option (List Record)) : Option (List Record) :=
  match runResult with
  | none => previous
  | some rows => some rows

/-! ### Basic lemmas about the midnight-splitting loop -/

/-- When the cursor has reached the record end the loop body is skipped. -/
lemma daySplitRec_of_not_lt {c e : ℚ} (h : ¬ c < e) : daySplitRec c e = [] := by
  rw [daySplitRec]
  simp [h]

/-- One unfolding of the loop: under `cursor < e` the guard
`segment_end > cursor` always holds, so exactly one segment is emitted and
the cursor advances to `min e (⌊cursor⌋ + 1)`. -/
lemma daySplitRec_of_lt {c e : ℚ} (h : c < e) :
    daySplitRec c e =
      (c, min e ((⌊c⌋ : ℚ) + 1)) :: daySplitRec (min e ((⌊c⌋ : ℚ) + 1)) e := by
  rw [daySplitRec]
  have hgt : min e ((⌊c⌋ : ℚ) + 1) > c := lt_min h (Int.lt_floor_add_one c)
  simp [h, hgt]

/-- Every emitted segment sits inside `[c, e]`, is non-degenerate, and ends
no later than the midnight following its own start. -/
lemma daySplitRec_mem {c e : ℚ} {p : ℚ × ℚ} (hp : p ∈ daySplitRec c e) :
    c ≤ p.1 ∧ p.1 < p.2 ∧ p.2 ≤ e ∧ p.2 ≤ (⌊p.1⌋ : ℚ) + 1 := by
  induction c, e using daySplitRec.induct with
  | case1 c e hlt ih =>
    rw [daySplitRec_of_lt hlt] at hp
    rcases List.mem_cons.mp hp with hhead | htail
    · subst hhead
      exact ⟨le_refl c, lt_min hlt (Int.lt_floor_add_one c),
        min_le_left _ _, min_le_right _ _⟩
    · have h := ih htail
      have hadv : c ≤ min e ((⌊c⌋ : ℚ) + 1) :=
        (lt_min hlt (Int.lt_floor_add_one c)).le
      exact ⟨le_trans hadv h.1, h.2.1, h.2.2.1, h.2.2.2⟩
  | case2 c e hlt =>
    rw [daySplitRec_of_not_lt hlt] at hp
    exact absurd hp (List.not_mem_nil p)

/-- The emitted segments tile `[c, e]` exactly: their lengths add up to
`e - c`. -/
lemma daySplitRec_sum (c e : ℚ) (h : c ≤ e) :
    ((daySplitRec c e).map (fun p => p.2 - p.1)).sum = e - c := by
  induction c, e using daySplitRec.induct with
  | case1 c e hlt ih =>
    rw [daySplitRec_of_lt hlt]
    simp only [List.map_cons, List.sum_cons]
    rw [ih (min_le_left _ _)]
    ring
  | case2 c e hlt =>
    rw [daySplitRec_of_not_lt hlt]
    have hce : c = e := le_antisymm h (not_lt.mp hlt)
    simp [hce]

/-- The loop reaches the record end: some emitted segment ends exactly at
`e`. -/
lemma daySplitRec_reaches_end {c e : ℚ} (h : c < e) :
    ∃ p ∈ daySplitRec c e, p.2 = e := by
  induction c, e using daySplitRec.induct with
  | case1 c e hlt ih =>
    rcases lt_or_le (min e ((⌊c⌋ : ℚ) + 1)) e with hm | hm
    · obtain ⟨p, hp, hpe⟩ := ih hm
      exact ⟨p, by rw [daySplitRec_of_lt hlt]; exact List.mem_cons_of_mem _ hp, hpe⟩
    · have hme : min e ((⌊c⌋ : ℚ) + 1) = e := le_antisymm (min_le_left _ _) hm
      refine ⟨(c, min e ((⌊c⌋ : ℚ) + 1)), ?_, hme⟩
      rw [daySplitRec_of_lt hlt]
      exact List.mem_cons_self _ _
  | case2 c e hlt =>
    exact absurd h hlt

/-! ### Basic lemmas about allocation splitting -/

/-- The lengths of the records laid out by `create_split_records` are the
allocation weights applied to the whole instance duration. -/
lemma csr_durations (category full_summary : String) :
    ∀ (allocations : List Alloc) (s d : ℚ),
      (create_split_records category full_summary allocations s d).map
          (fun r => r.end_datetime - r.start_datetime) =
        allocations.map (fun a => d * (a.weight / 100))
  | [], _, _ => rfl
  | a :: rest, s, d => by
    simp only [create_split_records, List.map_cons]
    rw [csr_durations category full_summary rest]
    simp

/-- The records laid out by `create_split_records` are back-to-back: each
one ends where the next begins. -/
lemma csr_chain (category full_summary : String) :
    ∀ (allocations : List Alloc) (s d : ℚ),
      List.Chain' (fun r₁ r₂ => r₁.end_datetime = r₂.start_datetime)
        (create_split_records category full_summary allocations s d)
  | [], _, _ => by simp [create_split_records]
  | [a], s, d => by simp [create_split_records]
  | a :: b :: rest, s, d => by
    rw [create_split_records, create_split_records]
    rw [List.chain'_cons]
    constructor
    · rfl
    · rw [← create_split_records]
      exact csr_chain category full_summary (b :: rest) _ d

/-- Each record produced by `create_split_records` owes its length to one of
the allocations. -/
lemma csr_mem {category full_summary : String} :
    ∀ {allocations : List Alloc} {s d : ℚ} {r : Record},
      r ∈ create_split_records category full_summary allocations s d →
        ∃ a ∈ allocations, r.end_datetime - r.start_datetime = d * (a.weight / 100)
  | [], _, _, _, hr => absurd hr (List.not_mem_nil _)
  | a :: rest, s, d, r, hr => by
    rw [create_split_records] at hr
    rcases List.mem_cons.mp hr with hhead | htail
    · subst hhead
      exact ⟨a, List.mem_cons_self _ _, by simp⟩
    · obtain ⟨b, hb, hbd⟩ := csr_mem htail
      exact ⟨b, List.mem_cons_of_mem _ hb, hbd⟩

/-! ### Basic lemmas about subcategory parsing -/

/-- A list of identical summands sums to length times the summand. -/
lemma sum_map_const {α : Type} (l : List α) (w : ℚ) :
    (l.map fun _ => w).sum = l.length * w := by
  induction l with
  | nil => simp
  | cons a t ih =>
    simp [ih]
    ring

/-- The allocation weights produced by `_parse_subcategories` always sum to
exactly 100. -/
lemma psc_weight_sum (s d : String) :
    ((_parse_subcategories s d).map Alloc.weight).sum = 100 := by
  unfold _parse_subcategories
  set l := (s.splitOn d).filterMap fun t =>
    if t.trim = "" then none else some t.trim.toLower with hl
  by_cases h : l = []
  · simp [h]
  · simp only [h, ne_eq, not_false_iff, if_true]
    rw [List.map_map]
    have hconst : ∀ x ∈ l, ((Alloc.weight ∘ fun n =>
        Alloc.mk n ((100 : ℚ) / l.length)) x) = (100 : ℚ) / l.length := by
      intro x _
      rfl
    rw [List.map_congr_left hconst, sum_map_const]
    have hne : (l.length : ℚ) ≠ 0 := by
      simpa using h
    field_simp

/-- Every allocation weight produced by `_parse_subcategories` is positive. -/
lemma psc_weight_pos {s d : String} {a : Alloc} (ha : a ∈ _parse_subcategories s d) :
    0 < a.weight := by
  unfold _parse_subcategories at ha
  set l := (s.splitOn d).filterMap fun t =>
    if t.trim = "" then none else some t.trim.toLower with hl
  by_cases h : l = []
  · simp [h] at ha
    rw [ha]
    norm_num
  · simp only [h, ne_eq, not_false_iff, if_true, List.mem_map] at ha
    obtain ⟨x, hx, rfl⟩ := ha
    have hpos : 0 < (l.length : ℚ) := by
      have : l.length ≠ 0 := by simpa using h
      positivity
    positivity

/-- `_parse_subcategories` never returns the empty list. -/
lemma psc_ne_nil (s d : String) : _parse_subcategories s d ≠ [] := by
  unfold _parse_subcategories
  set l := (s.splitOn d).filterMap fun t =>
    if t.trim = "" then none else some t.trim.toLower with hl
  by_cases h : l = []
  · simp [h]
  · simp [h]

/-! ### Window-stage characterization -/

/-- Membership in the output of the window stage, unfolded: a row survives
iff it is the clip of an input row that overlaps the window and its
post-clip duration exceeds the 0.1-minute epsilon. -/
lemma mem_windowClip_iff (window_start window_end : ℚ) (rs : List Record) (r' : Record) :
    r' ∈ windowClip window_start window_end rs ↔
      ∃ r, r ∈ rs ∧ r.start_datetime < window_end ∧ window_start < r.end_datetime ∧
        r' = clipRecord window_start window_end r ∧ 1/10 < duration_minutes r' := by
  simp only [windowClip, retainedRecords, List.mem_filter, List.mem_map,
    decide_eq_true_eq]
  constructor
  · rintro ⟨⟨r, ⟨hr, hlt, hgt⟩, rfl⟩, hdur⟩
    exact ⟨r, hr, hlt, hgt, rfl, hdur⟩
  · rintro ⟨r, hr, hlt, hgt, rfl, hdur⟩
    exact ⟨⟨r, ⟨hr, hlt, hgt⟩, rfl⟩, hdur⟩

/-! ### Duration preservation through the expansion loop -/

/-- Midnight splitting preserves the total duration of any record table
whose records are non-degenerate. -/
lemma expandEvents_sum (rs : List Record)
    (h : ∀ r ∈ rs, r.start_datetime ≤ r.end_datetime) :
    ((expandEvents rs).map (fun r => r.end_datetime - r.start_datetime)).sum =
      (rs.map (fun r => r.end_datetime - r.start_datetime)).sum := by
  induction rs with
  | nil => rfl
  | cons r t ih =>
    have hr : r.start_datetime ≤ r.end_datetime := h r (List.mem_cons_self _ _)
    have ht : ∀ x ∈ t, x.start_datetime ≤ x.end_datetime :=
      fun x hx => h x (List.mem_cons_of_mem _ hx)
    simp only [expandEvents, List.map_cons, List.flatten_cons, List.map_append,
      List.sum_append]
    rw [show (t.map expandRecord).flatten = expandEvents t from rfl, ih ht]
    congr 1
    unfold expandRecord
    by_cases hle : r.end_datetime ≤ r.start_datetime
    · have : r.end_datetime = r.start_datetime := le_antisymm hle hr
      simp [hle, this]
    · simp only [hle, if_false, List.map_map]
      have : ((fun x => x.end_datetime - x.start_datetime) ∘ fun p =>
          { r with start_datetime := p.1, end_datetime := p.2 }) =
          fun p : ℚ × ℚ => p.2 - p.1 := rfl
      rw [this, daySplitRec_sum _ _ hr]

/-! ### Concrete evaluations of the midnight-splitting loop -/

/-- A half-day record starting at midnight is returned unsplit. -/
lemma daySplitRec_eval_half : daySplitRec 0 (1/2) = [(0, 1/2)] := by
  rw [daySplitRec_of_lt (by norm_num)]
  norm_num [daySplitRec_of_not_lt]

/-- The UTC segment 20:00–23:00 of day 0 is returned unsplit. -/
lemma daySplitRec_eval_evening : daySplitRec (5/6) (23/24) = [(5/6, 23/24)] := by
  rw [daySplitRec_of_lt (by norm_num)]
  norm_num [daySplitRec_of_not_lt]

/-- The segment 23:00 day 0 – 01:00 day 1 is split at midnight. -/
lemma daySplitRec_eval_cross : daySplitRec (23/24) (25/24) = [(23/24, 1), (1, 25/24)] := by
  have h1 : min (25/24 : ℚ) ((⌊(23/24 : ℚ)⌋ : ℚ) + 1) = 1 := by norm_num
  have h2 : min (25/24 : ℚ) ((⌊(1 : ℚ)⌋ : ℚ) + 1) = 25/24 := by norm_num
  rw [daySplitRec_of_lt (by norm_num), h1, daySplitRec_of_lt (by norm_num), h2,
    daySplitRec_of_not_lt (by norm_num)]

/-- The segment 01:00–03:00 of day 1 (`9/8 = 27/24`) is returned unsplit. -/
lemma daySplitRec_eval_night : daySplitRec (25/24) (9/8) = [(25/24, 9/8)] := by
  rw [daySplitRec_of_lt (by norm_num)]
  norm_num [daySplitRec_of_not_lt]

/-! ### Claim C8 -/

/-- C8: for every title, the subcategory allocation set is non-empty and its
weights sum to exactly 100: with no surviving token it is the single
default allocation `{"no subcategory", 100}`, and with `N ≥ 1` surviving
tokens each allocation's weight is `100 / N`. -/
theorem c8_allocation_weights (s d : String) :
    _parse_subcategories s d ≠ [] ∧
    ((_parse_subcategories s d).map Alloc.weight).sum = 100 ∧
    (_parse_subcategories s d = [{ name := "no subcategory", weight := 100 }] ∨
      ∀ a ∈ _parse_subcategories s d,
        a.weight = 100 / ((_parse_subcategories s d).length : ℚ)) := by
  refine ⟨psc_ne_nil s d, psc_weight_sum s d, ?_⟩
  unfold _parse_subcategories
  set l := (s.splitOn d).filterMap fun t =>
    if t.trim = "" then none else some t.trim.toLower with hl
  by_cases h : l = []
  · left
    simp [h]
  · right
    simp only [h, ne_eq, not_false_iff, if_true, List.mem_map, List.length_map]
    rintro a ⟨x, hx, rfl⟩
    rfl

/-! ### Claim C10 -/

/-- C10: the midnight-splitting loop terminates (here: `daySplitRec` is a
total function — Lean accepts its termination measure): each iteration
advances the cursor to `min e (⌊cursor⌋ + 1)`, strictly greater than the
cursor; the finitely many emitted segments are all non-degenerate and one
of them ends exactly at the record end; and records with
`end_datetime ≤ start_datetime` are skipped before the loop. -/
theorem c10_split_loop_terminates (s e : ℚ) (r : Record) :
    (s < e → s < min e ((⌊s⌋ : ℚ) + 1)) ∧
    (s < e → ∃ p ∈ daySplitRec s e, p.2 = e) ∧
    (∀ p ∈ daySplitRec s e, p.1 < p.2) ∧
    (r.end_datetime ≤ r.start_datetime → expandRecord r = []) := by
  refine ⟨fun h => lt_min h (Int.lt_floor_add_one s),
    fun h => daySplitRec_reaches_end h,
    fun p hp => (daySplitRec_mem hp).2.1,
    fun h => ?_⟩
  unfold expandRecord
  simp [h]

/-- Witness for C10 at `s = 0`, `e = 1` and a degenerate record. -/
theorem c10_split_loop_terminates_witness :
    ((0 : ℚ) < 1) ∧
    ((0 : ℚ) < min 1 ((⌊(0 : ℚ)⌋ : ℚ) + 1)) ∧
    (∃ p ∈ daySplitRec 0 1, p.2 = 1) ∧
    expandRecord { start_datetime := 1, end_datetime := 0, category := "work",
                   subcategory_1 := "no subcategory", full_summary := "t" }
      = [] := by
  refine ⟨by norm_num,
    (c10_split_loop_terminates 0 1 { start_datetime := 1, end_datetime := 0,
                                     category := "work",
                                     subcategory_1 := "no subcategory",
                                     full_summary := "t" }).1 (by norm_num),
    (c10_split_loop_terminates 0 1 { start_datetime := 1, end_datetime := 0,
                                     category := "work",
                                     subcategory_1 := "no subcategory",
                                     full_summary := "t" }).2.1 (by norm_num),
    (c10_split_loop_terminates 0 1 { start_datetime := 1, end_datetime := 0,
                                     category := "work",
                                     subcategory_1 := "no subcategory",
                                     full_summary := "t" }).2.2.2 (by norm_num)⟩

/-! ### Claim C6 -/

/-- Pulling a constant factor out of a sum of weighted shares. -/
lemma sum_map_share (d : ℚ) (l : List Alloc) :
    (l.map fun a => d * (a.weight / 100)).sum = d * (l.map Alloc.weight).sum / 100 := by
  induction l with
  | nil => simp
  | cons a t ih =>
    simp only [List.map_cons, List.sum_cons, ih]
    ring

/-- C6: for a non-recurring event with `end > start` (and a non-empty
title, without which the source discards the event), the segments produced
by subcategory splitting followed by midnight splitting — before any window
clipping — have durations summing exactly to `end − start`. -/
theorem c6_duration_preserved (summ cat_delimiter subcat_delimiter : String)
    (s e : ℚ) (hs : s < e) (hsumm : summ ≠ "") :
    ∃ rs, parse_event ⟨some summ, some s, some e, none⟩
        cat_delimiter subcat_delimiter = Except.ok rs ∧
      ((expandEvents rs).map (fun r => r.end_datetime - r.start_datetime)).sum
        = e - s := by
  have hpe : parse_event ⟨some summ, some s, some e, none⟩
      cat_delimiter subcat_delimiter =
      Except.ok (create_split_records (classify summ cat_delimiter).1 summ
        (_parse_subcategories (classify summ cat_delimiter).2 subcat_delimiter)
        s (e - s)) := by
    simp [parse_event, hsumm]
  refine ⟨_, hpe, ?_⟩
  have hpos : ∀ r ∈ create_split_records (classify summ cat_delimiter).1 summ
      (_parse_subcategories (classify summ cat_delimiter).2 subcat_delimiter)
      s (e - s), r.start_datetime ≤ r.end_datetime := by
    intro r hr
    obtain ⟨a, ha, hd⟩ := csr_mem hr
    have hw : 0 < a.weight := psc_weight_pos ha
    have h0 : 0 ≤ (e - s) * (a.weight / 100) :=
      mul_nonneg (by linarith) (le_of_lt (div_pos hw (by norm_num)))
    linarith [hd]
  rw [expandEvents_sum _ hpos, csr_durations, sum_map_share, psc_weight_sum]
  ring

/-- Witness for C6 at the event "work", 0 → 1, delimiters ":" and "-". -/
theorem c6_duration_preserved_witness :
    ((0 : ℚ) < 1) ∧ ("work" ≠ "") ∧
    ∃ rs, parse_event ⟨some "work", some 0, some 1, none⟩ ":" "-" = Except.ok rs ∧
      ((expandEvents rs).map (fun r => r.end_datetime - r.start_datetime)).sum
        = 1 - 0 :=
  ⟨by norm_num, by decide,
    c6_duration_preserved "work" ":" "-" 0 1 (by norm_num) (by decide)⟩

/-! ### Claim C7 -/

/-- C7: a segment appears in the window stage's output iff it comes from a
localized segment overlapping the window in the half-open sense
(`start < window_end` and `end > window_start`), clipped to
`start = max(start, window_start)`, `end = min(end, window_end)`, and its
post-clip duration strictly exceeds the 0.1-minute epsilon (rows at or
below the epsilon are dropped). -/
theorem c7_window_clip_rules (window_start window_end : ℚ) (rs : List Record)
    (r' : Record) :
    r' ∈ windowClip window_start window_end rs ↔
      ∃ r, r ∈ rs ∧ r.start_datetime < window_end ∧ window_start < r.end_datetime ∧
        r'.start_datetime = max r.start_datetime window_start ∧
        r'.end_datetime = min r.end_datetime window_end ∧
        r'.category = r.category ∧ r'.subcategory_1 = r.subcategory_1 ∧
        r'.full_summary = r.full_summary ∧
        1/10 < (r'.end_datetime - r'.start_datetime) * 1440 := by
  rw [mem_windowClip_iff]
  constructor
  · rintro ⟨r, hr, h1, h2, rfl, hdur⟩
    refine ⟨r, hr, h1, h2, rfl, rfl, rfl, rfl, rfl, ?_⟩
    simpa [duration_minutes] using hdur
  · rintro ⟨r, hr, h1, h2, hs, he, hc, hsub, hf, hdur⟩
    refine ⟨r, hr, h1, h2, Record.ext hs he hc hsub hf, ?_⟩
    simpa [duration_minutes] using hdur

/-! ### Claim C9 -/

/-- C9: the window stage is idempotent on its own output: re-running the
retention test and the clipping on a segment the stage has already produced
retains it and returns it unchanged. -/
theorem c9_clip_idempotent (window_start window_end : ℚ) (rs : List Record)
    (r : Record) (h : r ∈ windowClip window_start window_end rs) :
    windowClip window_start window_end [r] = [r] := by
  obtain ⟨r0, _, hlt, hgt, rfl, hdur⟩ := (mem_windowClip_iff _ _ _ _).mp h
  have hs : window_start ≤ (clipRecord window_start window_end r0).start_datetime :=
    le_max_right _ _
  have he : (clipRecord window_start window_end r0).end_datetime ≤ window_end :=
    min_le_right _ _
  have hne : (clipRecord window_start window_end r0).start_datetime <
      (clipRecord window_start window_end r0).end_datetime := by
    unfold duration_minutes at hdur
    linarith
  have hcond : (clipRecord window_start window_end r0).start_datetime < window_end ∧
      window_start < (clipRecord window_start window_end r0).end_datetime :=
    ⟨lt_of_lt_of_le hne he, lt_of_le_of_lt hs hne⟩
  have hclip2 : clipRecord window_start window_end
      (clipRecord window_start window_end r0) =
      clipRecord window_start window_end r0 := by
    unfold clipRecord
    exact Record.ext (max_eq_left (le_max_right _ _))
      (min_eq_left (min_le_right _ _)) rfl rfl rfl
  simp only [windowClip, retainedRecords, List.filter_cons, List.filter_nil,
    decide_eq_true_eq]
  rw [if_pos hcond]
  simp only [List.map_cons, List.map_nil, hclip2, List.filter_cons, List.filter_nil,
    decide_eq_true_eq]
  rw [if_pos]
  unfold duration_minutes at hdur ⊢
  linarith

/-- Witness for C9 at a segment already inside the window. -/
theorem c9_clip_idempotent_witness :
    (⟨0, 1, "work", "no subcategory", "t"⟩ : Record) ∈
        windowClip 0 1 [⟨0, 1, "work", "no subcategory", "t"⟩] ∧
    windowClip 0 1 [⟨0, 1, "work", "no subcategory", "t"⟩] =
      [⟨0, 1, "work", "no subcategory", "t"⟩] := by
  have hmem : (⟨0, 1, "work", "no subcategory", "t"⟩ : Record) ∈
      windowClip 0 1 [⟨0, 1, "work", "no subcategory", "t"⟩] := by
    norm_num [windowClip, retainedRecords, clipRecord, duration_minutes]
  exact ⟨hmem, c9_clip_idempotent 0 1 _ _ hmem⟩

/-! ### Claim C1 -/

/-- C1 counterexample: the occurrence 23:00 day 0 – 03:00 day 1 (it crosses
exactly one midnight, so it is "split across 2 days") with the two equal
allocations "a" and "b" yields THREE segments, not the four the claim
predicts: the source applies the allocation weights to the whole
occurrence duration first (`create_split_records`, cuts at 01:00), and only
then cuts at midnight, so only the sub-segment containing midnight is cut
again. -/
theorem c1_counterexample :
    create_split_records "work" "work: a - b" [⟨"a", 50⟩, ⟨"b", 50⟩] (23/24) (1/6) =
      [⟨23/24, 25/24, "work", "a", "work: a - b"⟩,
        ⟨25/24, 27/24, "work", "b", "work: a - b"⟩] ∧
    expandEvents [⟨23/24, 25/24, "work", "a", "work: a - b"⟩,
        ⟨25/24, 27/24, "work", "b", "work: a - b"⟩] =
      [⟨23/24, 1, "work", "a", "work: a - b"⟩,
        ⟨1, 25/24, "work", "a", "work: a - b"⟩,
        ⟨25/24, 27/24, "work", "b", "work: a - b"⟩] ∧
    (expandEvents (create_split_records "work" "work: a - b"
        [⟨"a", 50⟩, ⟨"b", 50⟩] (23/24) (1/6))).length ≠ 4 := by
  have h1 : create_split_records "work" "work: a - b"
      [⟨"a", 50⟩, ⟨"b", 50⟩] (23/24) (1/6) =
      [⟨23/24, 25/24, "work", "a", "work: a - b"⟩,
        ⟨25/24, 27/24, "work", "b", "work: a - b"⟩] := by
    norm_num [create_split_records]
  have h2 : expandEvents [⟨23/24, 25/24, "work", "a", "work: a - b"⟩,
      ⟨25/24, 27/24, "work", "b", "work: a - b"⟩] =
      [⟨23/24, 1, "work", "a", "work: a - b"⟩,
        ⟨1, 25/24, "work", "a", "work: a - b"⟩,
        ⟨25/24, 27/24, "work", "b", "work: a - b"⟩] := by
    norm_num [expandEvents, expandRecord, daySplitRec_eval_cross,
      daySplitRec_eval_night]
  refine ⟨h1, h2, ?_⟩
  rw [h1, h2]
  norm_num

/-- C1 amended: the splitter applies the subcategory allocation weights
FIRST, against the whole occurrence's duration, laying the sub-segments
back-to-back, and only then cuts each sub-segment at calendar-day
boundaries; consequently an occurrence split across 2 days with 2 equal
allocations yields 3 segments when the allocation boundary does not fall on
the midnight (only the midnight-spanning sub-segment is cut again), not 4. -/
theorem c1_amended (category full_summary : String) (allocations : List Alloc)
    (s d : ℚ) :
    ((create_split_records category full_summary allocations s d).map
        (fun r => r.end_datetime - r.start_datetime) =
      allocations.map fun a => d * (a.weight / 100)) ∧
    List.Chain' (fun r₁ r₂ => r₁.end_datetime = r₂.start_datetime)
      (create_split_records category full_summary allocations s d) ∧
    (expandEvents (create_split_records "work" "work: a - b"
        [⟨"a", 50⟩, ⟨"b", 50⟩] (23/24) (1/6))).length = 3 := by
  refine ⟨csr_durations category full_summary allocations s d,
    csr_chain category full_summary allocations s d, ?_⟩
  have h1 : create_split_records "work" "work: a - b"
      [⟨"a", 50⟩, ⟨"b", 50⟩] (23/24) (1/6) =
      [⟨23/24, 25/24, "work", "a", "work: a - b"⟩,
        ⟨25/24, 27/24, "work", "b", "work: a - b"⟩] := by
    norm_num [create_split_records]
  rw [h1]
  norm_num [expandEvents, expandRecord, daySplitRec_eval_cross,
    daySplitRec_eval_night]

/-! ### Claim C2 -/

/-- The pipeline keeps the UTC segment 20:00–23:00 of day 0 unchanged under
the window `[0, 2]`. -/
lemma processRecords_eval_evening :
    processRecords [⟨5/6, 23/24, "work", "no subcategory", "work"⟩] 0 2 =
      [⟨5/6, 23/24, "work", "no subcategory", "work"⟩] := by
  unfold processRecords
  have h1 : expandEvents [⟨5/6, 23/24, "work", "no subcategory", "work"⟩] =
      [⟨5/6, 23/24, "work", "no subcategory", "work"⟩] := by
    norm_num [expandEvents, expandRecord, daySplitRec_eval_evening]
  rw [h1]
  norm_num [windowClip, retainedRecords, clipRecord, duration_minutes]

/-- C2 counterexample: the splitter cuts at midnights of the segments' own
(pre-conversion, here UTC) timezone, BEFORE the conversion at
`runner.py` lines 195–196.  Under the target timezone `Etc/GMT-3`
(offset `+1/8` day) the surviving output segment 20:00–23:00 UTC runs
23:30–02:30 local: its start and end fall on different target-timezone
calendar dates, i.e. it spans a target-timezone midnight. -/
theorem c2_counterexample :
    processRecords [⟨5/6, 23/24, "work", "no subcategory", "work"⟩] 0 2 =
      [⟨5/6, 23/24, "work", "no subcategory", "work"⟩] ∧
    local_date (1/8) (5/6) ≠ local_date (1/8) (23/24) ∧
    (5/6 : ℚ) + 1/8 < 1 ∧ (1 : ℚ) < 23/24 + 1/8 := by
  refine ⟨processRecords_eval_evening, ?_, by norm_num, by norm_num⟩
  unfold local_date
  norm_num [Int.floor_eq_iff]

/-- C2 amended: every segment in the output table satisfies
`start < end ≤ ⌊start⌋ + 1` — it never spans a midnight of the timezone
the splitting was performed in (the segments' own pre-conversion timezone,
UTC for naive inputs).  In a target timezone whose UTC offset differs, an
output segment may still span a local midnight, as the counterexample
shows. -/
theorem c2_no_split_midnight_spanned (records : List Record)
    (window_start window_end : ℚ) (r : Record)
    (hr : r ∈ processRecords records window_start window_end) :
    r.start_datetime < r.end_datetime ∧
      r.end_datetime ≤ (⌊r.start_datetime⌋ : ℚ) + 1 := by
  obtain ⟨r1, hr1, hlt, hgt, rfl, hdur⟩ := (mem_windowClip_iff _ _ _ _).mp hr
  have hne : (clipRecord window_start window_end r1).start_datetime <
      (clipRecord window_start window_end r1).end_datetime := by
    unfold duration_minutes at hdur
    linarith
  refine ⟨hne, ?_⟩
  obtain ⟨l, hl, hr1l⟩ := List.mem_flatten.mp hr1
  obtain ⟨r2, _, rfl⟩ := List.mem_map.mp hl
  unfold expandRecord at hr1l
  by_cases hskip : r2.end_datetime ≤ r2.start_datetime
  · rw [if_pos hskip] at hr1l
    exact absurd hr1l (List.not_mem_nil _)
  · rw [if_neg hskip] at hr1l
    obtain ⟨p, hp, rfl⟩ := List.mem_map.mp hr1l
    have hpm := daySplitRec_mem hp
    have hfloor : (⌊p.1⌋ : ℚ) + 1 ≤ (⌊max p.1 window_start⌋ : ℚ) + 1 := by
      have : ⌊p.1⌋ ≤ ⌊max p.1 window_start⌋ :=
        Int.floor_le_floor (le_max_left _ _)
      exact_mod_cast add_le_add_right (Int.cast_le.mpr this) 1
    calc (clipRecord window_start window_end
          { r2 with start_datetime := p.1, end_datetime := p.2 }).end_datetime
        ≤ p.2 := min_le_left _ _
      _ ≤ (⌊p.1⌋ : ℚ) + 1 := hpm.2.2.2
      _ ≤ (⌊(clipRecord window_start window_end
          { r2 with start_datetime := p.1, end_datetime := p.2 }).start_datetime⌋ : ℚ)
            + 1 := hfloor

/-- The pipeline keeps a half-day record starting at midnight unchanged. -/
lemma processRecords_eval_half :
    processRecords [⟨0, 1/2, "work", "no subcategory", "t"⟩] 0 2 =
      [⟨0, 1/2, "work", "no subcategory", "t"⟩] := by
  unfold processRecords
  have h1 : expandEvents [⟨0, 1/2, "work", "no subcategory", "t"⟩] =
      [⟨0, 1/2, "work", "no subcategory", "t"⟩] := by
    norm_num [expandEvents, expandRecord, daySplitRec_eval_half]
  rw [h1]
  norm_num [windowClip, retainedRecords, clipRecord, duration_minutes]

/-- Witness for the amended C2 at a concrete output segment. -/
theorem c2_no_split_midnight_spanned_witness :
    (⟨0, 1/2, "work", "no subcategory", "t"⟩ : Record) ∈
        processRecords [⟨0, 1/2, "work", "no subcategory", "t"⟩] 0 2 ∧
    ((0 : ℚ) < 1/2 ∧ (1/2 : ℚ) ≤ (⌊(0 : ℚ)⌋ : ℚ) + 1) := by
  have hmem : (⟨0, 1/2, "work", "no subcategory", "t"⟩ : Record) ∈
      processRecords [⟨0, 1/2, "work", "no subcategory", "t"⟩] 0 2 := by
    rw [processRecords_eval_half]
    exact List.mem_singleton.mpr rfl
  exact ⟨hmem, c2_no_split_midnight_spanned _ 0 2 _ hmem⟩

/-! ### Claim C3 -/

/-- C3, evaluated at the failing input: with a non-empty segment table and
an identifier absent from the timezone database, the stage raises
(`UnboundLocalError` at `runner.py` line 201: the handler printed
"Falling back to UTC" but never assigned `target_tz`), aborting the run —
the segments are NOT processed to the output table.  With a known
identifier the same table is processed normally. -/
theorem c3_unknown_timezone_aborts :
    localize_and_clip [("UTC", 0)] "Mars/Olympus" 0 2
        [⟨0, 1/2, "work", "no subcategory", "t"⟩] =
      Except.error "UnboundLocalError" ∧
    localize_and_clip [("UTC", 0)] "UTC" 0 2
        [⟨0, 1/2, "work", "no subcategory", "t"⟩] =
      Except.ok (windowClip 0 2 [⟨0, 1/2, "work", "no subcategory", "t"⟩]) := by
  constructor
  · rfl
  · rfl

/-! ### Claim C4 -/

/-- C4, evaluated at the failing input: an event with a summary and an end
but no `DTSTART` makes `parse_event` raise (`event.get('dtstart').dt` on
`None`), and since the collection loop at `runner.py` lines 140–144 has no
handler, the whole run aborts — the following well-formed event is never
processed, contradicting "contributes zero segments … and processing of
all remaining events continues".  (An unparsable recurrence rule, by
contrast, IS contained: third conjunct.) -/
theorem c4_missing_start_aborts_run :
    parse_event ⟨some "work", none, some 1, none⟩ ":" "-" =
      Except.error "AttributeError" ∧
    collectEvents [⟨some "work", none, some 1, none⟩,
        ⟨some "rest", some 0, some 1, none⟩] ":" "-" =
      Except.error "AttributeError" ∧
    parse_event ⟨some "work", some 0, some 1,
        some (Except.error "rrule failure")⟩ ":" "-" = Except.ok [] := by
  refine ⟨rfl, rfl, ?_⟩
  rfl

/-! ### Claim C5 -/

/-- C5 counterexample: on an empty input document the run returns without
writing (`runner.py` lines 128–130), so a previous run's non-empty table
remains at the output destination — it is neither removed nor replaced by
a fresh empty table. -/
theorem c5_counterexample :
    outputAfterRun (some [⟨0, 1, "work", "no subcategory", "t"⟩])
        (process_ics Doc.empty ":" "-" [("UTC", 0)] "UTC" 0 2) =
      some [⟨0, 1, "work", "no subcategory", "t"⟩] ∧
    (some [(⟨0, 1, "work", "no subcategory", "t"⟩ : Record)] ≠
      (none : Option (List Record))) ∧
    (some [(⟨0, 1, "work", "no subcategory", "t"⟩ : Record)] ≠
      some ([] : List Record)) := by
  refine ⟨rfl, by simp, by simp⟩

/-- C5 amended: an empty or structurally invalid document is fatal for the
run and reported, and the run writes nothing at all: the output
destination keeps exactly what it held before — in particular a previous
run's non-empty table stays in place (with the failure surfaced only in
the printed report, not at the destination). -/
theorem c5_fatal_input_leaves_output (d : Doc) (prev : Option (List Record))
    (cat_delimiter subcat_delimiter : String) (tzdb : List (String × ℚ))
    (timezone_str : String) (start_date end_date : ℚ)
    (h : d = Doc.empty ∨ d = Doc.invalid) :
    process_ics d cat_delimiter subcat_delimiter tzdb timezone_str
        start_date end_date = none ∧
    outputAfterRun prev (process_ics d cat_delimiter subcat_delimiter tzdb
        timezone_str start_date end_date) = prev := by
  rcases h with rfl | rfl
  · exact ⟨rfl, rfl⟩
  · exact ⟨rfl, rfl⟩

/-- Witness for the amended C5 on the empty document. -/
theorem c5_fatal_input_leaves_output_witness :
    (Doc.empty = Doc.empty ∨ Doc.empty = Doc.invalid) ∧
    process_ics Doc.empty ":" "-" [("UTC", 0)] "UTC" 0 2 = none ∧
    outputAfterRun (some []) (process_ics Doc.empty ":" "-" [("UTC", 0)] "UTC" 0 2) =
      some [] := by
  refine ⟨Or.inl rfl, ?_⟩
  exact c5_fatal_input_leaves_output Doc.empty (some []) ":" "-" [("UTC", 0)]
    "UTC" 0 2 (Or.inl rfl)
